import Mathlib

/-!
Verification of the cubequery task layer (cubequery/tasks/__init__.py):
the typed parameter model, the validation engine, kwarg coercion, the
jobtastic significant-kwargs declaration, and result packaging.

Modelling conventions.  Python runtime values that can reach the
validation and coercion code are modelled by the inductive type `Value`
(strings, integers, floats, booleans and None).  Python floats are
idealised as exact rationals extended with the special values inf, -inf
and nan.  Python float-literal parsing is modelled on ASCII text; the
whitespace stripping and digit-group underscores of the CPython parser
are not modelled since no claim depends on them.  Python str.isdigit is
Unicode-aware; it is modelled by a representative fragment of the
Unicode digit table: the ASCII digits, the Arabic-Indic decimal digits
U+0660 to U+0669 (which are decimal digits, so int() converts them), and
the superscript digits U+00B9, U+00B2, U+00B3 (which are digit
characters but not decimal digits, so int() rejects them).  Converting an
integer with float() raises OverflowError beyond the double range; the
exact threshold 2^1024 - 2^970 of the round-to-nearest-even conversion is
modelled, while in-range integers keep their exact value.  Fallible
Python operations return `Except PyErr`; an uncaught Python exception is
an `Except.error` result.
-/

/-- Python exception kinds raised by the numeric conversions involved here. -/
inductive PyErr where
  | valueError
  | typeError
  | overflowError
deriving DecidableEq, Repr

/-- A Python float: an exact rational, or one of the special values. -/
inductive PFloat where
  | finite (q : ℚ)
  | inf
  | neginf
  | nan
deriving DecidableEq, Repr

/-- A Python runtime value as it can reach validation and coercion:
a string, an int, a float, a bool, or None. -/
inductive Value where
  | vstr (s : String)
  | vint (n : ℤ)
  | vfloat (p : PFloat)
  | vbool (b : Bool)
  | vnone
deriving DecidableEq, Repr

instance {ε α : Type} [DecidableEq ε] [DecidableEq α] : DecidableEq (Except ε α) := fun a b =>
  match a, b with
  | .ok x, .ok y => decidable_of_iff (x = y) (by simp)
  | .error x, .error y => decidable_of_iff (x = y) (by simp)
  | .ok _, .error _ => .isFalse (by simp)
  | .error _, .ok _ => .isFalse (by simp)

/- The DType "enumeration" of the source is a class whose attributes are
plain strings (its metaclass use does not make it an enum), so a d_type
is simply a string tag. -/
namespace DType

def STRING : String := "str"

def INT : String := "int"

def FLOAT : String := "float"

def LAT : String := "lat"

def LON : String := "lon"

def DATE : String := "date"

def TIME : String := "time"

def WKT : String := "wkt"

end DType

/-- The Parameter descriptor of the source: name, display name, d_type tag,
description, and the optional list of permitted values (None defaults to []). -/
structure Parameter where
  name : String
  display_name : String
  d_type : String
  description : String
  valid : List Value := []
deriving DecidableEq, Repr

/-- Fragment of the Python str.isdigit character predicate: ASCII digits,
Arabic-Indic decimal digits U+0660 to U+0669, and the superscript digits
U+00B9, U+00B2, U+00B3.  Every character accepted here satisfies
str.isdigit in Python. -/
def pyIsdigitChar (c : Char) : Bool :=
  c.isDigit || (0x660 ≤ c.toNat && c.toNat ≤ 0x669) || c = '¹' || c = '²' || c = '³'

/-- The numeric value of a decimal digit character (the digits int() and
float() convert); the superscript digits are digit characters without a
decimal value. -/
def decimalDigitVal (c : Char) : Option ℕ :=
  if c.isDigit then some (c.toNat - 48)
  else if 0x660 ≤ c.toNat ∧ c.toNat ≤ 0x669 then some (c.toNat - 0x660)
  else none

/-- Python str.isdigit on the character list of a string: nonempty and all
characters are digit characters. -/
def strIsdigit (cs : List Char) : Bool :=
  !cs.isEmpty && cs.all pyIsdigitChar

/-- Accumulate the value of a run of decimal digit characters; fails on the
first character that has no decimal value. -/
def decValAux : List Char → ℕ → Option ℕ
  | [], acc => some acc
  | c :: cs, acc =>
    match decimalDigitVal c with
    | some d => decValAux cs (acc * 10 + d)
    | none => none

/-- Python int() applied to a string: an optional single sign followed by at
least one decimal digit character. -/
def pyParseInt (s : String) : Option ℤ :=
  match s.data with
  | [] => none
  | c :: rest =>
    if c = '+' then
      if rest.isEmpty then none else (decValAux rest 0).map Int.ofNat
    else if c = '-' then
      if rest.isEmpty then none else (decValAux rest 0).map (fun n => -(n : ℤ))
    else
      (decValAux (c :: rest) 0).map Int.ofNat

/-- Split off the leading run of decimal digit characters. -/
def takeDigits : List Char → List ℕ × List Char
  | [] => ([], [])
  | c :: cs =>
    match decimalDigitVal c with
    | some d =>
      let r := takeDigits cs
      (d :: r.1, r.2)
    | none => ([], c :: cs)

/-- Value of a digit run, most significant first. -/
def digitsToNat (ds : List ℕ) : ℕ :=
  ds.foldl (fun a d => a * 10 + d) 0

/-- Mantissa of a float literal: digits, optionally followed by a point and
further digits, or a point followed by digits.  Returns the digit value of
the mantissa, the number of fractional digits, and the unconsumed rest, so
the mantissa value is the first component divided by ten to the second. -/
def parseMantissa (cs : List Char) : Option (ℕ × ℕ × List Char) :=
  let r1 := takeDigits cs
  match r1.2 with
  | '.' :: r2 =>
    let r3 := takeDigits r2
    if r1.1.isEmpty && r3.1.isEmpty then none
    else some (digitsToNat r1.1 * 10 ^ r3.1.length + digitsToNat r3.1, r3.1.length, r3.2)
  | _ =>
    if r1.1.isEmpty then none else some (digitsToNat r1.1, 0, r1.2)

/-- Assemble a finite float from sign, mantissa digits, fractional digit
count and decimal exponent: the value num times ten to the (ex - frac),
negated when neg is set.  Built with Rat.divInt over integer arithmetic. -/
def pfOfParts (neg : Bool) (num frac : ℕ) (ex : ℤ) : PFloat :=
  let n : ℤ := if neg then -(num : ℤ) else (num : ℤ)
  let t : ℤ := ex - (frac : ℤ)
  if 0 ≤ t then .finite (Rat.divInt (n * (10 : ℤ) ^ t.toNat) 1)
  else .finite (Rat.divInt n ((10 : ℤ) ^ (-t).toNat))

/-- Exponent digits of a float literal: the whole rest must be a nonempty
digit run. -/
def parseExpDigits (neg : Bool) (num frac : ℕ) (pos : Bool) (cs : List Char) : Option PFloat :=
  let r := takeDigits cs
  if r.1.isEmpty || !r.2.isEmpty then none
  else
    some (pfOfParts neg num frac
      (if pos then (digitsToNat r.1 : ℤ) else -(digitsToNat r.1 : ℤ)))

/-- Optionally signed exponent digits. -/
def parseExpSigned (neg : Bool) (num frac : ℕ) (cs : List Char) : Option PFloat :=
  match cs with
  | '+' :: r => parseExpDigits neg num frac true r
  | '-' :: r => parseExpDigits neg num frac false r
  | r => parseExpDigits neg num frac true r

/-- Lower-case a character list (for case-insensitive inf and nan). -/
def toLowerList (cs : List Char) : List Char :=
  cs.map Char.toLower

/-- An unsigned float literal after the optional leading sign: inf, infinity,
nan (case-insensitive), or a mantissa with an optional exponent part. -/
def parseUnsigned (neg : Bool) (cs : List Char) : Option PFloat :=
  if toLowerList cs = "inf".data || toLowerList cs = "infinity".data then
    some (if neg then .neginf else .inf)
  else if toLowerList cs = "nan".data then some .nan
  else
    match parseMantissa cs with
    | none => none
    | some (num, frac, rest) =>
      match rest with
      | [] => some (pfOfParts neg num frac 0)
      | 'e' :: r2 => parseExpSigned neg num frac r2
      | 'E' :: r2 => parseExpSigned neg num frac r2
      | _ => none

/-- Python float() applied to a string: an optional sign followed by an
unsigned float literal. -/
def pyParseFloat (s : String) : Option PFloat :=
  match s.data with
  | '+' :: cs => parseUnsigned false cs
  | '-' :: cs => parseUnsigned true cs
  | cs => parseUnsigned false cs

/-- Truncation of a Python float toward zero, as int() does. -/
def pfTrunc (q : ℚ) : ℤ :=
  if 0 ≤ q then ⌊q⌋ else ⌈q⌉

/-- Python int(value): ints pass through, bools become 0 or 1, finite floats
truncate, strings parse as signed decimal digit runs; inf overflows, nan and
unparseable strings are ValueErrors, None is a TypeError. -/
def pyInt : Value → Except PyErr ℤ
  | .vint n => .ok n
  | .vbool b => .ok (if b then 1 else 0)
  | .vfloat (.finite q) => .ok (pfTrunc q)
  | .vfloat .inf => .error .overflowError
  | .vfloat .neginf => .error .overflowError
  | .vfloat .nan => .error .valueError
  | .vstr s =>
    match pyParseInt s with
    | some n => .ok n
    | none => .error .valueError
  | .vnone => .error .typeError

/-- The smallest magnitude at which integer-to-double conversion overflows,
namely 2 ^ 1024 - 2 ^ 970, written as a literal so that proofs evaluate it
cheaply; the theorem doubleOverflowBound_eq checks the value against the
power form. -/
def doubleOverflowBound : ℕ :=
  179769313486231580793728971405303415079934132710037826936173778980444968292764750946649017977587207096330286416692887910946555547851940402630657488671505820681908902000708383676273854845817711531764475730270069855571366959622842914819860834936475292719074168444365510704342711559699508093042880177904174497792

/-- Whether an integer converts to a double without overflow.  CPython
rounds the integer to the nearest double with ties to even and raises
OverflowError when the result would be infinite; the largest finite double
is 2^1024 - 2^971 and the halfway point to 2^1024 is 2^1024 - 2^970, whose
tie resolves upward to the infinite value, so conversion succeeds exactly
for magnitudes strictly below 2^1024 - 2^970. -/
def intFitsDouble (n : ℤ) : Bool :=
  n.natAbs < doubleOverflowBound

/-- Python float(value): floats pass through, bools convert exactly, ints
convert exactly when within double range and raise OverflowError beyond it,
strings parse as float literals; unparseable strings are ValueErrors, None
is a TypeError.  (The converted value of an in-range int is kept exact
rather than rounded; no range comparison in the code distinguishes the
two.) -/
def pyFloat : Value → Except PyErr PFloat
  | .vfloat p => .ok p
  | .vint n => if intFitsDouble n then .ok (.finite (n : ℚ)) else .error .overflowError
  | .vbool b => .ok (.finite (if b then 1 else 0))
  | .vstr s =>
    match pyParseFloat s with
    | some p => .ok p
    | none => .error .valueError
  | .vnone => .error .typeError

/-- check_int of the source: true for ints (and bools, which are ints in
Python); for a string, strip one leading sign and require str.isdigit of the
remainder; false for everything else. -/
def check_int : Value → Bool
  | .vint _ => true
  | .vbool _ => true
  | .vstr s =>
    match s.data with
    | [] => false
    | c :: rest =>
      if c = '-' ∨ c = '+' then strIsdigit rest
      else strIsdigit (c :: rest)
  | _ => false

/-- check_float of the source: true for floats; otherwise try float(value),
returning true on success and false on ValueError; any other exception
(TypeError for None) propagates. -/
def check_float (v : Value) : Except PyErr Bool :=
  match v with
  | .vfloat _ => .ok true
  | _ =>
    match pyFloat v with
    | .ok _ => .ok true
    | .error .valueError => .ok false
    | .error e => .error e

/-- Comparison of Python floats: nan compares false to everything. -/
def pfLe : PFloat → PFloat → Bool
  | .nan, _ => false
  | _, .nan => false
  | .neginf, _ => true
  | _, .inf => true
  | .finite a, .finite b => decide (a ≤ b)
  | _, _ => false

/-- isinstance(value, str). -/
def isStr : Value → Bool
  | .vstr _ => true
  | _ => false

/-- isinstance(value, float). -/
def isFloatValue : Value → Bool
  | .vfloat _ => true
  | _ => false

/-- Values on which the numeric validators cannot raise: everything except
None (whose float() conversion raises TypeError) and integers outside
double range (whose float() conversion raises OverflowError). -/
def validationSafe : Value → Bool
  | .vnone => false
  | .vint n => intFitsDouble n
  | _ => true

/-- validate_d_type of the source: dispatch on the d_type tag; INT uses
check_int, FLOAT uses check_float, LAT and LON add range checks on the
converted value, WKT asks the external well-known-text parser (here an
oracle argument), and every other tag falls through to isinstance(value, str). -/
def validate_d_type (wktOk : Value → Bool) (param : Parameter) (value : Value) :
    Except PyErr Bool :=
  if param.d_type = DType.INT then .ok (check_int value)
  else if param.d_type = DType.FLOAT then check_float value
  else if param.d_type = DType.LAT then
    match check_float value with
    | .error e => .error e
    | .ok b =>
      if b then
        match pyFloat value with
        | .error e => .error e
        | .ok q => .ok (pfLe (.finite (-90)) q && pfLe q (.finite 90))
      else .ok false
  else if param.d_type = DType.LON then
    match check_float value with
    | .error e => .error e
    | .ok b =>
      if b then
        match pyFloat value with
        | .error e => .error e
        | .ok q => .ok (pfLe (.finite (-180)) q && pfLe q (.finite 180))
      else .ok false
  else if param.d_type = DType.WKT then .ok (wktOk value)
  else .ok (isStr value)

/-- validate_arg of the source: look the name up in the declared parameter
list first; unknown names fail with a not-found reason, otherwise the first
matching Parameter is checked with validate_d_type. -/
def validate_arg (wktOk : Value → Bool) (parameters : List Parameter) (name : String)
    (value : Value) : Except PyErr (Bool × String) :=
  match parameters.filter (fun p => p.name = name) with
  | [] => .ok (false, "parameter " ++ name ++ " not found")
  | param :: _ =>
    match validate_d_type wktOk param value with
    | .error e => .error e
    | .ok b =>
      if b then .ok (true, "")
      else .ok (false, "parameter " ++ name ++ " value did not validate")

/-- The Python type objects used as jobtastic significant-kwargs coercion
tags: str and int. -/
inductive JType where
  | jstr
  | jint
deriving DecidableEq, Repr

/-- map_d_type_to_jobtastic of the source: every branch returns the str
type object. -/
def map_d_type_to_jobtastic (d_type : String) : JType :=
  if d_type = DType.INT then JType.jstr
  else if d_type = DType.FLOAT ∨ d_type = DType.LAT ∨ d_type = DType.LON then JType.jstr
  else JType.jstr

/-- cal_significant_kwargs of the source: one (name, coercion type) pair per
declared Parameter, in order. -/
def cal_significant_kwargs (parameters : List Parameter) : List (String × JType) :=
  parameters.map (fun p => (p.name, map_d_type_to_jobtastic p.d_type))

/-- The per-key body of map_kwargs in the source: find the first Parameter
with the given name; INT converts with int(), FLOAT, LAT and LON convert with
float(), anything else (including an unknown name) passes the value through. -/
def coerce_kwarg (parameters : List Parameter) (k : String) (v : Value) :
    Except PyErr Value :=
  match parameters.filter (fun p => p.name = k) with
  | [] => .ok v
  | arg :: _ =>
    if arg.d_type = DType.INT then
      match pyInt v with
      | .error e => .error e
      | .ok n => .ok (.vint n)
    else if arg.d_type = DType.FLOAT ∨ arg.d_type = DType.LAT ∨ arg.d_type = DType.LON then
      match pyFloat v with
      | .error e => .error e
      | .ok q => .ok (.vfloat q)
    else .ok v

/-- map_kwargs of the source: coerce each (key, value) pair in order,
keeping every key; the first failing conversion aborts the whole call. -/
def map_kwargs (parameters : List Parameter) :
    List (String × Value) → Except PyErr (List (String × Value))
  | [] => .ok []
  | (k, v) :: rest =>
    match coerce_kwarg parameters k v with
    | .error e => .error e
    | .ok w =>
      match map_kwargs parameters rest with
      | .error e => .error e
      | .ok tail => .ok ((k, w) :: tail)

/-- The coercion contract stated by the spec for one key: INT parameters get
the int() conversion, FLOAT, LAT and LON parameters the float() conversion,
and every other key keeps its raw value. -/
def coercionSpec (parameters : List Parameter) (k : String) (v w : Value) : Prop :=
  match parameters.filter (fun p => p.name = k) with
  | [] => w = v
  | arg :: _ =>
    if arg.d_type = DType.INT then ∃ n, pyInt v = .ok n ∧ w = .vint n
    else if arg.d_type = DType.FLOAT ∨ arg.d_type = DType.LAT ∨ arg.d_type = DType.LON then
      ∃ p, pyFloat v = .ok p ∧ w = .vfloat p
    else w = v

/-- The signed-digits grammar of the spec, parametrised by the digit
predicate: one optional sign, then at least one digit character.  With
Char.isDigit this is exactly the ASCII grammar written in the spec; with
pyIsdigitChar it is the Unicode-aware variant the code implements. -/
def intGrammar (digit : Char → Bool) (cs : List Char) : Bool :=
  match cs with
  | [] => false
  | c :: rest =>
    if c = '+' ∨ c = '-' then !rest.isEmpty && rest.all digit
    else (c :: rest).all digit

/-- os.path.basename on posix paths: the part after the last slash. -/
def basename (s : String) : String :=
  ⟨s.data.foldl (fun acc c => if c = '/' then [] else acc ++ [c]) []⟩

/-- os.path.join for the uses in the source (relative second component). -/
def pathJoin (a b : String) : String :=
  a ++ "/" ++ b

/-- log_query of the source, as a filesystem update: it writes the serialized
request record to query.json inside the working directory. -/
def log_query {γ : Type} (fs : String → γ) (outDir : String) (record : γ) : String → γ :=
  fun p => if p = pathJoin outDir "query.json" then record else fs p

/-- zip_outputs of the source: the archive path and its entry list, in write
order; the query.json file of the working directory goes in first under the
fixed name query.json, then each result path under its base name, reading
contents from the filesystem fs. -/
def zip_outputs {γ : Type} (fs : String → γ) (outDir request_id : String)
    (results : List String) : String × List (String × γ) :=
  (pathJoin outDir (request_id ++ "_output.zip"),
   ("query.json", fs (pathJoin outDir "query.json")) ::
     results.map (fun f => (basename f, fs f)))

/-- Extracting a zip archive writes the entries in order, so for each entry
name the extracted content is that of the last entry carrying the name. -/
def extract {γ : Type} : List (String × γ) → String → Option γ
  | [], _ => none
  | e :: es, n =>
    match extract es n with
    | some w => some w
    | none => if n = e.1 then some e.2 else none

/-- Stand-in oracle for the external well-known-text parser; the claims never
depend on its verdicts. -/
def wktStub : Value → Bool := fun _ => false

/-- Sample FLOAT parameter named x. -/
def pFloatX : Parameter := ⟨"x", "x", DType.FLOAT, "", []⟩

/-- Sample LAT parameter named lat. -/
def pLatX : Parameter := ⟨"lat", "lat", DType.LAT, "", []⟩

/-- Sample INT parameter named year. -/
def pIntYear : Parameter := ⟨"year", "year", DType.INT, "", []⟩

/-- Sample INT parameter named flag. -/
def pIntFlag : Parameter := ⟨"flag", "flag", DType.INT, "", []⟩

/-- Sample DATE parameter named d. -/
def pDateX : Parameter := ⟨"d", "d", DType.DATE, "", []⟩

/-- The kinds of value whose float() conversion succeeds: a float, an
integer within double range, a boolean, or a string that parses as a float
literal. -/
def floatConvertible (v : Value) : Prop :=
  isFloatValue v = true ∨ (∃ n, v = .vint n ∧ intFitsDouble n = true) ∨
    (∃ b, v = .vbool b) ∨
    (∃ s, v = .vstr s ∧ (pyParseFloat s).isSome = true)

/-- The overflow-bound literal equals 2 ^ 1024 - 2 ^ 970. -/
theorem doubleOverflowBound_eq : doubleOverflowBound = 2 ^ 1024 - 2 ^ 970 := by
  norm_num [doubleOverflowBound]

/-- Unfolding of check_float through the float() conversion: success means
true, a ValueError means false, any other exception propagates. -/
theorem check_float_eq (v : Value) :
    check_float v = match pyFloat v with
      | .ok _ => .ok true
      | .error .valueError => .ok false
      | .error e => .error e := by
  cases v <;> rfl

/-- A float() error is a ValueError, except a TypeError on None and an
OverflowError on an integer outside double range. -/
theorem pyFloat_error_cases (v : Value) (e : PyErr) (h : pyFloat v = .error e) :
    e = .valueError ∨ v = .vnone ∨
      ∃ n, v = .vint n ∧ e = .overflowError ∧ intFitsDouble n = false := by
  cases v with
  | vstr s =>
    left
    simp only [pyFloat] at h
    rcases hp : pyParseFloat s with _ | q <;> rw [hp] at h
    · injection h with h
      exact h.symm
    · exact absurd h (by simp)
  | vint n =>
    refine Or.inr (Or.inr ⟨n, rfl, ?_⟩)
    simp only [pyFloat] at h
    by_cases hf : intFitsDouble n = true
    · rw [if_pos hf] at h
      exact absurd h (by simp)
    · rw [if_neg hf] at h
      injection h with h
      exact ⟨h.symm, by simpa using hf⟩
  | vfloat q => exact absurd h (by simp [pyFloat])
  | vbool b => exact absurd h (by simp [pyFloat])
  | vnone => exact Or.inr (Or.inl rfl)

/-- check_float succeeds with true exactly when float() converts. -/
theorem check_float_ok_true_iff (v : Value) :
    check_float v = .ok true ↔ ∃ q, pyFloat v = .ok q := by
  rw [check_float_eq]
  rcases hp : pyFloat v with e | q
  · cases e <;> simp
  · simp

/-- check_float returns a boolean on every safe value. -/
theorem check_float_total (v : Value) (h : validationSafe v = true) :
    ∃ b, check_float v = .ok b := by
  rw [check_float_eq]
  rcases hp : pyFloat v with e | q
  · rcases pyFloat_error_cases v e hp with he | hv | ⟨n, hn, he2, hf⟩
    · subst he
      exact ⟨false, rfl⟩
    · subst hv
      simp [validationSafe] at h
    · subst hn
      simp [validationSafe, hf] at h
  · exact ⟨true, rfl⟩

/-- validate_d_type on an INT parameter is check_int. -/
theorem validate_d_type_int (w : Value → Bool) (p : Parameter) (v : Value)
    (h : p.d_type = DType.INT) : validate_d_type w p v = .ok (check_int v) := by
  unfold validate_d_type
  rw [h, if_pos rfl]

/-- validate_d_type on a FLOAT parameter is check_float. -/
theorem validate_d_type_float (w : Value → Bool) (p : Parameter) (v : Value)
    (h : p.d_type = DType.FLOAT) : validate_d_type w p v = check_float v := by
  unfold validate_d_type
  rw [h, if_neg (by decide), if_pos rfl]

/-- validate_d_type on a LAT parameter: convert and range-check, ValueError
means reject, other exceptions propagate. -/
theorem validate_d_type_lat (w : Value → Bool) (p : Parameter) (v : Value)
    (h : p.d_type = DType.LAT) :
    validate_d_type w p v = match pyFloat v with
      | .ok q => .ok (pfLe (.finite (-90)) q && pfLe q (.finite 90))
      | .error .valueError => .ok false
      | .error e => .error e := by
  unfold validate_d_type
  rw [h, if_neg (by decide), if_neg (by decide), if_pos rfl, check_float_eq]
  rcases hp : pyFloat v with e | q
  · cases e <;> rfl
  · rfl

/-- validate_d_type on a LON parameter: convert and range-check, ValueError
means reject, other exceptions propagate. -/
theorem validate_d_type_lon (w : Value → Bool) (p : Parameter) (v : Value)
    (h : p.d_type = DType.LON) :
    validate_d_type w p v = match pyFloat v with
      | .ok q => .ok (pfLe (.finite (-180)) q && pfLe q (.finite 180))
      | .error .valueError => .ok false
      | .error e => .error e := by
  unfold validate_d_type
  rw [h, if_neg (by decide), if_neg (by decide), if_neg (by decide), if_pos rfl, check_float_eq]
  rcases hp : pyFloat v with e | q
  · cases e <;> rfl
  · rfl

/-- validate_d_type on any tag other than the five recognised ones is the
isinstance(value, str) check. -/
theorem validate_d_type_str (w : Value → Bool) (p : Parameter) (v : Value)
    (h1 : p.d_type ≠ DType.INT) (h2 : p.d_type ≠ DType.FLOAT) (h3 : p.d_type ≠ DType.LAT)
    (h4 : p.d_type ≠ DType.LON) (h5 : p.d_type ≠ DType.WKT) :
    validate_d_type w p v = .ok (isStr v) := by
  unfold validate_d_type
  rw [if_neg h1, if_neg h2, if_neg h3, if_neg h4, if_neg h5]

/-- validate_d_type returns a boolean on every safe value. -/
theorem validate_d_type_total (w : Value → Bool) (p : Parameter) (v : Value)
    (h : validationSafe v = true) : ∃ b, validate_d_type w p v = .ok b := by
  by_cases h1 : p.d_type = DType.INT
  · exact ⟨check_int v, validate_d_type_int w p v h1⟩
  by_cases h2 : p.d_type = DType.FLOAT
  · rw [validate_d_type_float w p v h2]
    exact check_float_total v h
  by_cases h3 : p.d_type = DType.LAT
  · rw [validate_d_type_lat w p v h3]
    rcases hp : pyFloat v with e | q
    · rcases pyFloat_error_cases v e hp with he | hv | ⟨n, hn, he2, hf⟩
      · subst he
        exact ⟨false, rfl⟩
      · subst hv
        simp [validationSafe] at h
      · subst hn
        simp [validationSafe, hf] at h
    · exact ⟨_, rfl⟩
  by_cases h4 : p.d_type = DType.LON
  · rw [validate_d_type_lon w p v h4]
    rcases hp : pyFloat v with e | q
    · rcases pyFloat_error_cases v e hp with he | hv | ⟨n, hn, he2, hf⟩
      · subst he
        exact ⟨false, rfl⟩
      · subst hv
        simp [validationSafe] at h
      · subst hn
        simp [validationSafe, hf] at h
    · exact ⟨_, rfl⟩
  by_cases h5 : p.d_type = DType.WKT
  · refine ⟨w v, ?_⟩
    unfold validate_d_type
    rw [if_neg h1, if_neg h2, if_neg h3, if_neg h4, if_pos h5]
  · exact ⟨isStr v, validate_d_type_str w p v h1 h2 h3 h4 h5⟩

/-- Every d_type tag is mapped to the str fingerprint type. -/
theorem map_d_type_to_jobtastic_eq (d : String) : map_d_type_to_jobtastic d = JType.jstr := by
  simp [map_d_type_to_jobtastic]

/-- Claim C3 counterexample: a Parameter of d_type INT is mapped to the
string-like fingerprint type str, not to an integer-like type, so the
declared INT-to-integer-like mapping fails on the code. -/
theorem significant_kwargs_int_counterexample :
    cal_significant_kwargs [pIntYear] = [("year", JType.jstr)] ∧ JType.jstr ≠ JType.jint := by
  exact ⟨rfl, by decide⟩

/-- Claim C3 (amended): the significant-kwargs declaration maps every
Parameter, whatever its d_type (including INT), to the string-like
fingerprint type, producing one (name, type) pair per Parameter in order. -/
theorem significant_kwargs_all_str (parameters : List Parameter) :
    cal_significant_kwargs parameters = parameters.map (fun p => (p.name, JType.jstr)) := by
  unfold cal_significant_kwargs
  simp [map_d_type_to_jobtastic_eq]

/-- Claim C6: validation of a name absent from the declared parameter list
returns not-accepted with the not-found reason, for every value, before any
type rule runs (the result is the same even for values whose type check
would raise). -/
theorem validate_arg_not_found (w : Value → Bool) (parameters : List Parameter)
    (name : String) (v : Value) (h : ∀ p ∈ parameters, p.name ≠ name) :
    validate_arg w parameters name v = .ok (false, "parameter " ++ name ++ " not found") := by
  have hfil : parameters.filter (fun p => p.name = name) = [] := by
    rw [List.filter_eq_nil_iff]
    intro p hp
    simp [h p hp]
  unfold validate_arg
  rw [hfil]

/-- Claim C6 witness: a FLOAT parameter list without the requested name, and
the None value whose FLOAT type rule would raise TypeError, still produce the
not-found pair. -/
theorem validate_arg_not_found_witness :
    validate_arg wktStub [pFloatX] "missing" .vnone =
      .ok (false, "parameter " ++ "missing" ++ " not found") :=
  validate_arg_not_found wktStub [pFloatX] "missing" .vnone (by decide)

/-- Claim C8: for a Parameter of d_type STRING, DATE or TIME, validation
accepts exactly the natively-string values; DATE and TIME take the same
fallthrough branch as STRING. -/
theorem string_date_time_validation (w : Value → Bool) (p : Parameter) (v : Value)
    (h : p.d_type = DType.STRING ∨ p.d_type = DType.DATE ∨ p.d_type = DType.TIME) :
    validate_d_type w p v = .ok (isStr v) := by
  have h1 : p.d_type ≠ DType.INT := by rcases h with h | h | h <;> rw [h] <;> decide
  have h2 : p.d_type ≠ DType.FLOAT := by rcases h with h | h | h <;> rw [h] <;> decide
  have h3 : p.d_type ≠ DType.LAT := by rcases h with h | h | h <;> rw [h] <;> decide
  have h4 : p.d_type ≠ DType.LON := by rcases h with h | h | h <;> rw [h] <;> decide
  have h5 : p.d_type ≠ DType.WKT := by rcases h with h | h | h <;> rw [h] <;> decide
  exact validate_d_type_str w p v h1 h2 h3 h4 h5

/-- Claim C8 witness: a DATE parameter accepts a string and rejects an
integer through the same string check. -/
theorem string_date_time_validation_witness :
    (pDateX.d_type = DType.STRING ∨ pDateX.d_type = DType.DATE ∨ pDateX.d_type = DType.TIME) ∧
    validate_d_type wktStub pDateX (.vint 3) = .ok (isStr (.vint 3)) :=
  ⟨Or.inr (Or.inl rfl),
    string_date_time_validation wktStub pDateX (.vint 3) (Or.inr (Or.inl rfl))⟩

/-- Claim C10: booleans count as already-integers for INT validation, and
kwarg coercion converts True to 1 and False to 0. -/
theorem bool_int_edge :
    check_int (.vbool true) = true ∧ check_int (.vbool false) = true ∧
    validate_d_type wktStub pIntFlag (.vbool true) = .ok true ∧
    validate_d_type wktStub pIntFlag (.vbool false) = .ok true ∧
    map_kwargs [pIntFlag] [("flag", .vbool true)] = .ok [("flag", .vint 1)] ∧
    map_kwargs [pIntFlag] [("flag", .vbool false)] = .ok [("flag", .vint 0)] := by
  refine ⟨rfl, rfl, by decide, by decide, by decide, by decide⟩

/-- Claim C4 counterexample: validating the value None against a declared
FLOAT parameter raises TypeError, and validating an integer of overflowing
magnitude raises OverflowError (the code catches only ValueError around the
float() call), so validation does not always return a result pair. -/
theorem validate_raises_counterexample :
    validate_arg wktStub [pFloatX] "x" .vnone = .error .typeError ∧
    validate_arg wktStub [pFloatX] "x" (.vint (doubleOverflowBound : ℤ)) =
      .error .overflowError := by
  refine ⟨by decide, by decide⟩

/-- Unfolding of validate_arg when the name lookup finds a first match. -/
theorem validate_arg_cons (w : Value → Bool) (parameters : List Parameter) (name : String)
    (v : Value) (param : Parameter) (rest : List Parameter)
    (hfil : parameters.filter (fun p => p.name = name) = param :: rest) :
    validate_arg w parameters name v =
      match validate_d_type w param v with
      | .error e => .error e
      | .ok b =>
        if b then .ok (true, "")
        else .ok (false, "parameter " ++ name ++ " value did not validate") := by
  unfold validate_arg
  rw [hfil]

/-- Claim C4 (amended): for every raw value that is a string, a float, a
boolean, or an integer within double range, validation never raises: it
returns an (accepted, reason) pair whose reason is empty on acceptance and
otherwise is the not-found or the did-not-validate message.  Under a FLOAT,
LAT or LON rule the float() call raises an uncaught TypeError on None and
an uncaught OverflowError on an integer outside double range. -/
theorem validate_total_on_safe (w : Value → Bool) (parameters : List Parameter)
    (name : String) (v : Value) (h : validationSafe v = true) :
    ∃ b r, validate_arg w parameters name v = .ok (b, r) ∧
      (b = true → r = "") ∧
      (b = false → r = "parameter " ++ name ++ " not found" ∨
        r = "parameter " ++ name ++ " value did not validate") := by
  rcases hfil : parameters.filter (fun p => p.name = name) with _ | ⟨param, rest⟩
  · refine ⟨false, _, ?_, by intro hb; exact absurd hb (by decide), fun _ => Or.inl rfl⟩
    unfold validate_arg
    rw [hfil]
  · rcases validate_d_type_total w param v h with ⟨b, hb⟩
    rw [validate_arg_cons w parameters name v param rest hfil, hb]
    cases b
    · exact ⟨false, _, rfl, by intro hb; exact absurd hb (by decide), fun _ => Or.inr rfl⟩
    · exact ⟨true, "", rfl, fun _ => rfl, by intro hb; exact absurd hb (by decide)⟩

/-- Claim C4 witness: a safe (string) value for an unknown name yields a
returned pair with the not-found reason. -/
theorem validate_total_on_safe_witness :
    validationSafe (.vstr "a") = true ∧
    ∃ b r, validate_arg wktStub [] "x" (.vstr "a") = .ok (b, r) ∧
      (b = true → r = "") ∧
      (b = false → r = "parameter " ++ "x" ++ " not found" ∨
        r = "parameter " ++ "x" ++ " value did not validate") :=
  ⟨rfl, validate_total_on_safe wktStub [] "x" (.vstr "a") rfl⟩

/-- float() succeeds exactly on floats, integers, booleans and strings that
parse as float literals. -/
theorem pyFloat_ok_iff (v : Value) : (∃ q, pyFloat v = .ok q) ↔ floatConvertible v := by
  unfold floatConvertible
  cases v with
  | vstr s =>
    simp only [pyFloat]
    rcases hp : pyParseFloat s with _ | q <;> simp [hp, isFloatValue]
  | vint n =>
    simp only [pyFloat]
    by_cases hf : intFitsDouble n = true <;> simp [hf, isFloatValue]
  | vfloat q => simp [pyFloat, isFloatValue]
  | vbool b => simp [pyFloat, isFloatValue]
  | vnone => simp [pyFloat, isFloatValue]

/-- Claim C1 counterexample: a FLOAT parameter accepts the integer value 5,
which is neither a floating-point value nor a string, so acceptance is not
restricted to floats and parsing strings. -/
theorem float_accepts_int_counterexample :
    validate_d_type wktStub pFloatX (.vint 5) = .ok true ∧
    isFloatValue (.vint 5) = false ∧ isStr (.vint 5) = false := by
  refine ⟨by decide, rfl, rfl⟩

/-- Claim C1 (amended): for FLOAT, LAT and LON parameters, validation accepts
exactly the values whose float() conversion succeeds - floats, integers,
booleans, and strings parsing as float literals - with the LAT range
[-90, 90] and the LON range [-180, 180] imposed on the converted value
(under Python float comparison, so a nan conversion is rejected by the
range); plain FLOAT has no range constraint. -/
theorem float_family_validation (w : Value → Bool) (p : Parameter) (v : Value) :
    ((∃ q, pyFloat v = .ok q) ↔ floatConvertible v) ∧
    (p.d_type = DType.FLOAT →
      (validate_d_type w p v = .ok true ↔ floatConvertible v)) ∧
    (p.d_type = DType.LAT →
      (validate_d_type w p v = .ok true ↔
        ∃ q, pyFloat v = .ok q ∧ (pfLe (.finite (-90)) q && pfLe q (.finite 90)) = true)) ∧
    (p.d_type = DType.LON →
      (validate_d_type w p v = .ok true ↔
        ∃ q, pyFloat v = .ok q ∧ (pfLe (.finite (-180)) q && pfLe q (.finite 180)) = true)) := by
  refine ⟨pyFloat_ok_iff v, ?_, ?_, ?_⟩
  · intro h
    rw [validate_d_type_float w p v h, check_float_ok_true_iff, pyFloat_ok_iff]
  · intro h
    rw [validate_d_type_lat w p v h]
    rcases hp : pyFloat v with e | q
    · cases e <;> simp
    · simp
  · intro h
    rw [validate_d_type_lon w p v h]
    rcases hp : pyFloat v with e | q
    · cases e <;> simp
    · simp

/-- Claim C1 witness: the LAT parameter accepts the string 90, whose parsed
value sits on the range boundary. -/
theorem float_family_validation_witness :
    pLatX.d_type = DType.LAT ∧
    (validate_d_type wktStub pLatX (.vstr "90") = .ok true ↔
      ∃ q, pyFloat (.vstr "90") = .ok q ∧
        (pfLe (.finite (-90)) q && pfLe q (.finite 90)) = true) :=
  ⟨rfl, (float_family_validation wktStub pLatX (.vstr "90")).2.2.1 rfl⟩

/-- Claim C2 counterexample: the Arabic-Indic digit string is accepted by
the INT check (its characters satisfy str.isdigit) although it does not
match the ASCII grammar of one optional sign and [0-9] digits. -/
theorem int_grammar_counterexample :
    check_int (.vstr "٤٢") = true ∧ intGrammar Char.isDigit "٤٢".data = false ∧
    validate_d_type wktStub pIntYear (.vstr "٤٢") = .ok true := by
  refine ⟨by decide, by decide, by decide⟩

/-- Claim C2 (amended): an INT parameter accepts exactly the integers, the
booleans (integers in Python), and the nonempty strings made of one optional
sign followed by at least one str.isdigit character - the Unicode digit
characters, a strict superset of [0-9]. -/
theorem check_int_characterization (v : Value) :
    check_int v = true ↔
      (∃ n, v = .vint n) ∨ (∃ b, v = .vbool b) ∨
      (∃ s, v = .vstr s ∧ intGrammar pyIsdigitChar s.data = true) := by
  cases v with
  | vstr s =>
    simp only [check_int]
    rcases hd : s.data with _ | ⟨c, rest⟩
    · simp [intGrammar, hd]
    · by_cases h1 : c = '-'
      · simp [hd, h1, intGrammar, strIsdigit]
      · by_cases h2 : c = '+'
        · simp [hd, h1, h2, intGrammar, strIsdigit]
        · have hor : (c = '-' ∨ c = '+') = False := by simp [h1, h2]
          have hor2 : (c = '+' ∨ c = '-') = False := by simp [h1, h2]
          simp [hd, hor, hor2, intGrammar, strIsdigit]
  | vint n => simp [check_int]
  | vbool b => simp [check_int]
  | vfloat q => simp [check_int]
  | vnone => simp [check_int]

/-- strIsdigit unfolded to a proposition. -/
theorem strIsdigit_iff (cs : List Char) :
    strIsdigit cs = true ↔ cs ≠ [] ∧ ∀ c ∈ cs, pyIsdigitChar c = true := by
  simp [strIsdigit]

/-- Digit accumulation succeeds when every character has a decimal value. -/
theorem decValAux_isSome (cs : List Char) (acc : ℕ)
    (h : ∀ c ∈ cs, (decimalDigitVal c).isSome = true) :
    (decValAux cs acc).isSome = true := by
  induction cs generalizing acc with
  | nil => rfl
  | cons c cs ih =>
    have hc := h c (by simp)
    rcases hx : decimalDigitVal c with _ | d
    · rw [hx] at hc
      simp at hc
    · simp only [decValAux, hx]
      exact ih _ (fun x hx2 => h x (by simp [hx2]))

/-- A string accepted by check_int either parses with int(), or contains a
digit character without a decimal value. -/
theorem check_int_string_coercible (s : String) (h : check_int (.vstr s) = true) :
    (∃ n, pyParseInt s = some n) ∨
    ∃ c ∈ s.data, pyIsdigitChar c = true ∧ decimalDigitVal c = none := by
  rcases hd : s.data with _ | ⟨c, rest⟩
  · simp only [check_int, hd] at h
    exact absurd h (by decide)
  · simp only [check_int, hd] at h
    simp only [pyParseInt, hd]
    by_cases hm : c = '-'
    · subst hm
      rw [if_pos (Or.inl rfl), strIsdigit_iff] at h
      obtain ⟨hne, hdig⟩ := h
      by_cases hall : ∀ x ∈ rest, (decimalDigitVal x).isSome = true
      · left
        rw [if_neg (by decide), if_pos rfl, if_neg (by simpa using hne)]
        have hs := decValAux_isSome rest 0 hall
        rcases hv : decValAux rest 0 with _ | n
        · rw [hv] at hs
          simp at hs
        · exact ⟨-(n : ℤ), rfl⟩
      · right
        push_neg at hall
        obtain ⟨x, hx, hxd⟩ := hall
        refine ⟨x, List.mem_cons_of_mem _ hx, hdig x hx, ?_⟩
        rcases hv : decimalDigitVal x with _ | d
        · rfl
        · rw [hv] at hxd
          simp at hxd
    · by_cases hp2 : c = '+'
      · subst hp2
        rw [if_pos (Or.inr rfl), strIsdigit_iff] at h
        obtain ⟨hne, hdig⟩ := h
        by_cases hall : ∀ x ∈ rest, (decimalDigitVal x).isSome = true
        · left
          rw [if_pos rfl, if_neg (by simpa using hne)]
          have hs := decValAux_isSome rest 0 hall
          rcases hv : decValAux rest 0 with _ | n
          · rw [hv] at hs
            simp at hs
          · exact ⟨(n : ℤ), rfl⟩
        · right
          push_neg at hall
          obtain ⟨x, hx, hxd⟩ := hall
          refine ⟨x, List.mem_cons_of_mem _ hx, hdig x hx, ?_⟩
          rcases hv : decimalDigitVal x with _ | d
          · rfl
          · rw [hv] at hxd
            simp at hxd
      · rw [if_neg (by simp [hm, hp2]), strIsdigit_iff] at h
        obtain ⟨hne, hdig⟩ := h
        by_cases hall : ∀ x ∈ c :: rest, (decimalDigitVal x).isSome = true
        · left
          rw [if_neg hp2, if_neg hm]
          have hs := decValAux_isSome (c :: rest) 0 hall
          rcases hv : decValAux (c :: rest) 0 with _ | n
          · rw [hv] at hs
            simp at hs
          · exact ⟨(n : ℤ), rfl⟩
        · right
          push_neg at hall
          obtain ⟨x, hx, hxd⟩ := hall
          refine ⟨x, hx, hdig x hx, ?_⟩
          rcases hv : decimalDigitVal x with _ | d
          · rfl
          · rw [hv] at hxd
            simp at hxd

/-- coerce_kwarg on a single INT parameter under its own name is the int()
conversion. -/
theorem coerce_kwarg_int (param : Parameter) (v : Value) (h : param.d_type = DType.INT) :
    coerce_kwarg [param] param.name v =
      match pyInt v with
      | .error e => .error e
      | .ok n => .ok (.vint n) := by
  have hfil : List.filter (fun p => p.name = param.name) [param] = [param] := by simp
  simp only [coerce_kwarg, hfil]
  rw [if_pos h]

/-- coerce_kwarg on a single FLOAT, LAT or LON parameter under its own name
is the float() conversion. -/
theorem coerce_kwarg_float_like (param : Parameter) (v : Value)
    (h : param.d_type = DType.FLOAT ∨ param.d_type = DType.LAT ∨ param.d_type = DType.LON) :
    coerce_kwarg [param] param.name v =
      match pyFloat v with
      | .error e => .error e
      | .ok q => .ok (.vfloat q) := by
  have hne : param.d_type ≠ DType.INT := by rcases h with h | h | h <;> rw [h] <;> decide
  have hfil : List.filter (fun p => p.name = param.name) [param] = [param] := by simp
  simp only [coerce_kwarg, hfil]
  rw [if_neg hne, if_pos h]

/-- Claim C5 counterexample: the superscript-two string passes INT
validation (its character satisfies str.isdigit) but int() raises
ValueError on it, so kwarg coercion of a validated value can fail. -/
theorem validated_coercion_failure_counterexample :
    validate_d_type wktStub pIntYear (.vstr "²") = .ok true ∧
    pyInt (.vstr "²") = .error .valueError ∧
    map_kwargs [pIntYear] [("year", .vstr "²")] = .error .valueError := by
  refine ⟨by decide, by decide, by decide⟩

/-- Claim C5 (amended): for FLOAT, LAT and LON parameters every validated
value coerces successfully; for INT parameters a validated value coerces
successfully unless it is a string containing a digit character with no
decimal value (such as superscript two), in which case int() raises. -/
theorem validated_implies_coercible (w : Value → Bool) (param : Parameter) (v : Value)
    (hd : param.d_type = DType.INT ∨ param.d_type = DType.FLOAT ∨
      param.d_type = DType.LAT ∨ param.d_type = DType.LON)
    (hv : validate_d_type w param v = .ok true) :
    (∃ u, coerce_kwarg [param] param.name v = .ok u) ∨
    (param.d_type = DType.INT ∧ ∃ s, v = .vstr s ∧
      ∃ c ∈ s.data, pyIsdigitChar c = true ∧ decimalDigitVal c = none) := by
  rcases hd with h | h | h | h
  · rw [validate_d_type_int w param v h] at hv
    injection hv with hv
    cases v with
    | vint n =>
      left
      exact ⟨.vint n, by rw [coerce_kwarg_int param _ h]; rfl⟩
    | vbool b =>
      left
      refine ⟨.vint (if b then 1 else 0), ?_⟩
      rw [coerce_kwarg_int param _ h]
      cases b <;> rfl
    | vstr s =>
      rcases check_int_string_coercible s hv with ⟨n, hn⟩ | hbad
      · left
        refine ⟨.vint n, ?_⟩
        rw [coerce_kwarg_int param _ h]
        simp [pyInt, hn]
      · exact Or.inr ⟨h, s, rfl, hbad⟩
    | vfloat q => simp [check_int] at hv
    | vnone => simp [check_int] at hv
  · rw [validate_d_type_float w param v h] at hv
    obtain ⟨q, hq⟩ := (check_float_ok_true_iff v).mp hv
    left
    exact ⟨.vfloat q, by rw [coerce_kwarg_float_like param v (Or.inl h), hq]⟩
  · rw [validate_d_type_lat w param v h] at hv
    rcases hp : pyFloat v with e | q
    · rw [hp] at hv
      cases e <;> simp at hv
    · left
      exact ⟨.vfloat q, by rw [coerce_kwarg_float_like param v (Or.inr (Or.inl h)), hp]⟩
  · rw [validate_d_type_lon w param v h] at hv
    rcases hp : pyFloat v with e | q
    · rw [hp] at hv
      cases e <;> simp at hv
    · left
      exact ⟨.vfloat q, by rw [coerce_kwarg_float_like param v (Or.inr (Or.inr h)), hp]⟩

/-- Claim C5 witness: a validated FLOAT string coerces successfully. -/
theorem validated_implies_coercible_witness :
    (pFloatX.d_type = DType.INT ∨ pFloatX.d_type = DType.FLOAT ∨
      pFloatX.d_type = DType.LAT ∨ pFloatX.d_type = DType.LON) ∧
    ((∃ u, coerce_kwarg [pFloatX] pFloatX.name (.vstr "1.5") = .ok u) ∨
      (pFloatX.d_type = DType.INT ∧ ∃ s, Value.vstr "1.5" = .vstr s ∧
        ∃ c ∈ s.data, pyIsdigitChar c = true ∧ decimalDigitVal c = none)) :=
  ⟨Or.inr (Or.inl rfl),
    validated_implies_coercible wktStub pFloatX (.vstr "1.5") (Or.inr (Or.inl rfl)) (by decide)⟩

/-- A successful per-key coercion satisfies the coercion contract. -/
theorem coerce_kwarg_spec (parameters : List Parameter) (k : String) (v u : Value)
    (h : coerce_kwarg parameters k v = .ok u) : coercionSpec parameters k v u := by
  rcases hfil : parameters.filter (fun p => p.name = k) with _ | ⟨arg, rest⟩ <;>
    simp only [coerce_kwarg, hfil] at h <;> simp only [coercionSpec, hfil]
  · injection h with h
    exact h.symm
  · by_cases h1 : arg.d_type = DType.INT
    · rw [if_pos h1] at h ⊢
      rcases hn : pyInt v with e | n <;> rw [hn] at h
      · exact absurd h (by simp)
      · injection h with h
        exact ⟨n, rfl, h.symm⟩
    · rw [if_neg h1] at h ⊢
      by_cases h2 : arg.d_type = DType.FLOAT ∨ arg.d_type = DType.LAT ∨
          arg.d_type = DType.LON
      · rw [if_pos h2] at h ⊢
        rcases hq : pyFloat v with e | q <;> rw [hq] at h
        · exact absurd h (by simp)
        · injection h with h
          exact ⟨q, rfl, h.symm⟩
      · rw [if_neg h2] at h ⊢
        injection h with h
        exact h.symm

/-- Claim C7: whenever kwarg coercion returns a mapping, it has exactly the
keys of the raw kwargs in order, and each value obeys the coercion contract:
int() for INT parameters, float() for FLOAT, LAT and LON, and the raw value
unchanged for every other key, matched or not. -/
theorem map_kwargs_characterization (parameters : List Parameter)
    (kwargs m : List (String × Value)) (h : map_kwargs parameters kwargs = .ok m) :
    m.map Prod.fst = kwargs.map Prod.fst ∧
    List.Forall₂ (fun kv kw => kw.1 = kv.1 ∧ coercionSpec parameters kv.1 kv.2 kw.2)
      kwargs m := by
  induction kwargs generalizing m with
  | nil =>
    simp only [map_kwargs] at h
    injection h with h
    subst h
    exact ⟨rfl, List.Forall₂.nil⟩
  | cons kv rest ih =>
    obtain ⟨k, v⟩ := kv
    simp only [map_kwargs] at h
    rcases hc : coerce_kwarg parameters k v with e | u <;> rw [hc] at h
    · exact absurd h (by simp)
    · rcases ht : map_kwargs parameters rest with e | tail <;> rw [ht] at h
      · exact absurd h (by simp)
      · injection h with h
        subst h
        obtain ⟨ihm, ihf⟩ := ih tail ht
        refine ⟨?_, List.Forall₂.cons ⟨rfl, coerce_kwarg_spec parameters k v u hc⟩ ihf⟩
        simp [ihm]

/-- Claim C7 witness: a mixed kwarg set with an INT key, a LAT key and an
undeclared key coerces with its keys preserved. -/
theorem map_kwargs_characterization_witness :
    map_kwargs [pIntYear, pLatX] [("year", .vstr "42"), ("lat", .vstr "45"), ("extra", .vnone)] =
      .ok [("year", .vint 42), ("lat", .vfloat (.finite 45)), ("extra", .vnone)] ∧
    ([("year", Value.vint 42), ("lat", .vfloat (.finite 45)), ("extra", .vnone)].map Prod.fst =
      [("year", Value.vstr "42"), ("lat", .vstr "45"), ("extra", .vnone)].map Prod.fst ∧
    List.Forall₂ (fun kv kw => kw.1 = kv.1 ∧ coercionSpec [pIntYear, pLatX] kv.1 kv.2 kw.2)
      [("year", Value.vstr "42"), ("lat", .vstr "45"), ("extra", .vnone)]
      [("year", Value.vint 42), ("lat", .vfloat (.finite 45)), ("extra", .vnone)]) :=
  ⟨by decide, map_kwargs_characterization [pIntYear, pLatX] _ _ (by decide)⟩

/-- Extraction yields nothing exactly for names carried by no entry. -/
theorem extract_eq_none_iff {γ : Type} (es : List (String × γ)) (n : String) :
    extract es n = none ↔ ∀ e ∈ es, n ≠ e.1 := by
  induction es with
  | nil => simp [extract]
  | cons e es ih =>
    simp only [extract]
    rcases hx : extract es n with _ | w
    · have hall := ih.mp hx
      by_cases hn : n = e.1
      · subst hn
        simp [List.forall_mem_cons, hall]
      · simp [List.forall_mem_cons, hn, hall]
        exact fun a b hab => hall (a, b) hab
    · have hno : ¬∀ x ∈ es, n ≠ x.1 := by
        intro hall
        have := ih.mpr hall
        rw [hx] at this
        exact absurd this (by simp)
      constructor
      · intro habs
        exact absurd habs (by simp)
      · intro hall
        exact absurd (fun x hxm => hall x (List.mem_cons_of_mem _ hxm)) hno

/-- With distinct entry names, extraction returns the content stored under
the name. -/
theorem extract_mem_nodup {γ : Type} (es : List (String × γ)) (n : String) (w : γ)
    (hnd : (es.map Prod.fst).Nodup) (hm : (n, w) ∈ es) : extract es n = some w := by
  induction es with
  | nil => simp at hm
  | cons e es ih =>
    simp only [List.map_cons, List.nodup_cons] at hnd
    obtain ⟨hni, hnd2⟩ := hnd
    rcases List.mem_cons.mp hm with he | hm2
    · subst he
      have hnone : extract es n = none := by
        rw [extract_eq_none_iff]
        intro x hx heq
        have hmem : x.1 ∈ es.map Prod.fst := List.mem_map_of_mem Prod.fst hx
        rw [← heq] at hmem
        exact hni hmem
      simp [extract, hnone]
    · have hsome := ih hnd2 hm2
      simp [extract, hsome]

/-- Appending an entry makes it shadow every earlier entry with its name. -/
theorem extract_append_last {γ : Type} (es : List (String × γ)) (e : String × γ) (n : String) :
    extract (es ++ [e]) n = if n = e.1 then some e.2 else extract es n := by
  induction es with
  | nil => rfl
  | cons a es ih =>
    simp only [List.cons_append, extract, List.append_eq]
    rw [ih]
    by_cases hn : n = e.1 <;> simp [hn]

/-- Claim C9: packaging produces the archive at the fixed
requestId_output.zip path inside the working directory; extraction of the
archive yields the request record under query.json and each output under its
base name, exactly those names when base names do not collide, and for
colliding base names the later entry wins. -/
theorem zip_outputs_contract {γ : Type} (fs : String → γ) (outDir rid : String)
    (record : γ) (results : List String)
    (hnd : ("query.json" :: results.map basename).Nodup) :
    (zip_outputs (log_query fs outDir record) outDir rid results).1 =
      pathJoin outDir (rid ++ "_output.zip") ∧
    extract (zip_outputs (log_query fs outDir record) outDir rid results).2 "query.json" =
      some record ∧
    (∀ f ∈ results,
      extract (zip_outputs (log_query fs outDir record) outDir rid results).2 (basename f) =
        some (log_query fs outDir record f)) ∧
    (∀ n, n ∉ ("query.json" :: results.map basename) →
      extract (zip_outputs (log_query fs outDir record) outDir rid results).2 n = none) ∧
    (∀ (pre : List String) (g : String),
      extract (zip_outputs (log_query fs outDir record) outDir rid (pre ++ [g])).2
        (basename g) = some (log_query fs outDir record g)) := by
  have hrec : log_query fs outDir record (pathJoin outDir "query.json") = record := by
    simp [log_query]
  have hent : (zip_outputs (log_query fs outDir record) outDir rid results).2 =
      ("query.json", record) ::
        results.map (fun f => (basename f, log_query fs outDir record f)) := by
    simp [zip_outputs, hrec]
  have hnames : ((("query.json", record) ::
      results.map (fun f => (basename f, log_query fs outDir record f))).map Prod.fst) =
      "query.json" :: results.map basename := by
    simp
  refine ⟨rfl, ?_, ?_, ?_, ?_⟩
  · rw [hent]
    exact extract_mem_nodup _ _ _ (by rw [hnames]; exact hnd) (by simp)
  · intro f hf
    rw [hent]
    refine extract_mem_nodup _ _ _ (by rw [hnames]; exact hnd) ?_
    exact List.mem_cons_of_mem _ (List.mem_map_of_mem _ hf)
  · intro n hn
    rw [hent, extract_eq_none_iff]
    intro e he
    rcases List.mem_cons.mp he with he1 | he2
    · subst he1
      intro heq
      exact hn (heq ▸ List.mem_cons_self _ _)
    · obtain ⟨f, hf, rfl⟩ := List.mem_map.mp he2
      intro heq
      exact hn (heq ▸ List.mem_cons_of_mem _ (List.mem_map_of_mem _ hf))
  · intro pre g
    have hent2 : (zip_outputs (log_query fs outDir record) outDir rid (pre ++ [g])).2 =
        (("query.json", record) ::
          pre.map (fun f => (basename f, log_query fs outDir record f))) ++
          [(basename g, log_query fs outDir record g)] := by
      simp [zip_outputs, hrec]
    rw [hent2, extract_append_last]
    simp

/-- Claim C9 witness: two output files with distinct base names extract to
their contents alongside the record under query.json. -/
theorem zip_outputs_contract_witness :
    extract (zip_outputs (log_query (fun _ => (0 : ℕ)) "wd" 7) "wd" "r1"
      ["a/x.txt", "b/y.txt"]).2 "query.json" = some 7 :=
  (zip_outputs_contract (fun _ => (0 : ℕ)) "wd" "r1" 7 ["a/x.txt", "b/y.txt"]
    (by decide)).2.1
